import Mathlib

/-!
Verification of the core logic of `vhsDecodeGUI.py` (vhsDecodeScripts).

The Python source is shallowly embedded below.  Conventions used throughout:

* Strings are processed as `List Char` (via `String.data`); the two regular
  expressions of the source (`FRAME_PATTERN`, `ANSI_ESCAPE_PATTERN`) and the
  SGR-splitting regex of `log_output` are embedded as explicit scanners with
  Python `re.search` / `re.split` / `re.sub` semantics (leftmost match; the
  character classes involved are pairwise disjoint, so the greedy quantifiers
  never need backtracking and a maximal-span scan is exact).  `\d` is modelled
  as the ASCII digits, which is exact on the ASCII process output the program
  parses.
* Wall-clock instants (`time.time()` values) are modelled as integers `ℤ`;
  the source only ever subtracts and compares them.  The one true division
  (the FPS display) lands in a `ℚ`-valued field.
* Tkinter `StringVar` counters (`current_frame`, `dropped_field_count`,
  `track_skip_count`) hold decimal renderings of numbers that the source
  itself reads back with `int(...)`; they are modelled by their numeric
  values.  The `decode_fps` StringVar is modelled by the last rational value
  written to it.
* Python `/` on an `int` and the float `25.0`, together with the subsequent
  `int(...)` truncations in `convert_frame_to_timecode`, are modelled by
  exact integer floor-division and Euclidean remainder (Lean's `Int` `/`
  and `%`), which agree with the float computation throughout the exactly
  representable range.
-/

namespace VhsDecode

/-- ASCII digit test (Python `\d` on the decoder's ASCII output). -/
def isDigitCh (c : Char) : Bool := '0' ≤ c && c ≤ '9'

/-- Length of the maximal leading span of characters satisfying `p`. -/
def spanLen (p : Char → Bool) : List Char → Nat
  | [] => 0
  | c :: rest => if p c then spanLen p rest + 1 else 0

/-- `needle` occurs at the start of `hay`. -/
def listStartsWith : List Char → List Char → Bool
  | [], _ => true
  | _ :: _, [] => false
  | n :: ns, h :: hs => n = h && listStartsWith ns hs

/-- Python's `needle in hay` substring test. -/
def containsSub (needle : List Char) : List Char → Bool
  | [] => needle.isEmpty
  | h :: hs => listStartsWith needle (h :: hs) || containsSub needle hs

/-- Numeric value of a digit string (Python `int` on the regex capture). -/
def digitsToNat (ds : List Char) : Nat :=
  ds.foldl (fun acc c => acc * 10 + (c.toNat - '0'.toNat)) 0

/-- The literal `"File Frame "` that opens `FRAME_PATTERN`. -/
def framePre : List Char := "File Frame ".data

/-- The literal `": VHS"` that closes `FRAME_PATTERN`. -/
def frameSuf : List Char := ": VHS".data

/-- Attempt to match `FRAME_PATTERN = r"File Frame (\d+): VHS"` anchored at the
head of `cs`; returns the captured frame number.  (`\d+` is greedy, and a
digit is never `':'`, so only the maximal digit span can be followed by the
suffix — no backtracking is possible.) -/
def matchFrameAt (cs : List Char) : Option Nat :=
  if listStartsWith framePre cs then
    let rest := cs.drop framePre.length
    let d := spanLen isDigitCh rest
    if 0 < d && listStartsWith frameSuf (rest.drop d) then
      some (digitsToNat (rest.take d))
    else none
  else none

/-- `re.search` of `FRAME_PATTERN`: leftmost match, returning the captured
non-negative integer. -/
def frameSearch : List Char → Option Nat
  | [] => none
  | c :: rest =>
    match matchFrameAt (c :: rest) with
    | some n => some n
    | none => frameSearch rest

/-- `DROPPED_FIELD_PATTERN` (substring marker). -/
def dropMarker : List Char := "dropping field".data

/-- `TRACK_SKIP_PATTERN` (substring marker). -/
def skipMarker : List Char := "skipped a track".data

/-- The closed set of events a raw output line is classified into
(spec §3 `ClassifiedEvent`). -/
inductive ClassifiedEvent where
  | FrameProgress (frame : Nat)
  | DroppedField
  | TrackSkip
  | PlainLine (text : String)
deriving DecidableEq, Repr

/-- The classification chain of `_process_output_line` (source lines 604-625):
frame pattern first, then the dropped-field marker, then the track-skip
marker, else a plain log line. -/
def classify (line : String) : ClassifiedEvent :=
  match frameSearch line.data with
  | some n => .FrameProgress n
  | none =>
    if containsSub dropMarker line.data then .DroppedField
    else if containsSub skipMarker line.data then .TrackSkip
    else .PlainLine line

/-- `true` exactly when `classify` yields `DroppedField`. -/
def isDropEvent (line : String) : Bool :=
  match classify line with
  | .DroppedField => true
  | _ => false

/-- `true` exactly when `classify` yields `TrackSkip`. -/
def isSkipEvent (line : String) : Bool :=
  match classify line with
  | .TrackSkip => true
  | _ => false

/-- Python `f"{n:02d}"`: zero-pad a single non-negative digit to width two
(a negative or multi-digit value already has width at least two). -/
def pad2 (n : Int) : String :=
  if 0 ≤ n ∧ n < 10 then "0" ++ toString n else toString n

/-- `hours = int(total_seconds // 3600)` with `total_seconds = frame / 25`. -/
def tcHours (f : Int) : Int := f / 90000

/-- `minutes = int((total_seconds // 60) % 60)`. -/
def tcMinutes (f : Int) : Int := (f / 1500) % 60

/-- `seconds = int(total_seconds % 60)`. -/
def tcSeconds (f : Int) : Int := (f / 25) % 60

/-- `frames = frame_number % FPS` (then `int(...)` at format time). -/
def tcFrames (f : Int) : Int := f % 25

/-- `convert_frame_to_timecode` (source lines 28-44).  The argument is
`none` for an input on which Python's `int(...)` raises `TypeError` or
`ValueError` (non-numeric / malformed input), and `some f` for an input
converting to the integer `f`. -/
def convert_frame_to_timecode : Option Int → String
  | none => "00:00:00.00"
  | some f =>
    pad2 (tcHours f) ++ ":" ++ pad2 (tcMinutes f) ++ ":" ++
      pad2 (tcSeconds f) ++ "." ++ pad2 (tcFrames f)

/-- The escape character `\x1B`. -/
def escCh : Char := '\x1B'

/-- A digit or `';'` (the `[\d;]*` class of the SGR-splitting regex). -/
def isDigitSemi (c : Char) : Bool := isDigitCh c || c = ';'

/-- Length of the `[\d;]*` span of an SGR sequence whose body starts at
`rest`. -/
def sgrBodyLen (rest : List Char) : Nat := spanLen isDigitSemi rest

/-- Attempt to match the SGR-splitting regex `\x1B\[[\d;]*m` anchored at the
head of `cs`; returns the length of the match.  (The class `[\d;]` never
contains `m`, so only the maximal span can precede the final `m`.) -/
def sgrMatchAt : List Char → Option Nat
  | c1 :: c2 :: rest =>
    if c1 = escCh ∧ c2 = '[' ∧ (rest.drop (sgrBodyLen rest)).head? = some 'm'
    then some (sgrBodyLen rest + 3) else none
  | _ => none

/-- The worker of the SGR split: `acc` is the reversed text chunk read since
the previous separator.  The recursion is paced by a fuel argument so that
it is structural; every step strictly shrinks `cs` (a separator match has
positive length), so fuel `cs.length + 1` is never exhausted. -/
def sgrSplitGo (fuel : Nat) (acc : List Char) (cs : List Char) : List (List Char) :=
  match fuel with
  | 0 => [acc.reverse]
  | fuel + 1 =>
    match sgrMatchAt cs with
    | some n =>
      acc.reverse :: cs.take n :: sgrSplitGo fuel [] (cs.drop n)
    | none =>
      match cs with
      | [] => [acc.reverse]
      | c :: rest => sgrSplitGo fuel (c :: acc) rest

/-- `re.split(r"(\x1B\[[\d;]*m)", text)`: alternating text pieces and the
captured SGR separators, empties included (Python keeps them; the consumer
skips them). -/
def sgrSplit (cs : List Char) : List (List Char) :=
  sgrSplitGo (cs.length + 1) [] cs

/-- One character of the class `[0-?]` (parameter bytes of
`ANSI_ESCAPE_PATTERN`). -/
def isParamByte (c : Char) : Bool := '0' ≤ c && c ≤ '?'

/-- One character of the intermediate-byte class (space through `'/'`). -/
def isInterByte (c : Char) : Bool := ' ' ≤ c && c ≤ '/'

/-- One character of the class `[@-~]` (final bytes). -/
def isFinalByte (c : Char) : Bool := '@' ≤ c && c ≤ '~'

/-- Combined length of the parameter-byte and intermediate-byte spans of an
ANSI escape whose body starts at `rest`. -/
def ansiBodyLen (rest : List Char) : Nat :=
  let a := spanLen isParamByte rest
  a + spanLen isInterByte (rest.drop a)

/-- Attempt to match `ANSI_ESCAPE_PATTERN` (escape, `[`, parameter bytes,
intermediate bytes, one final byte) anchored at the head of `cs`; returns the
length of the match.  (The three classes are pairwise disjoint character
ranges, so the greedy spans are exact.) -/
def ansiMatchAt : List Char → Option Nat
  | c1 :: c2 :: rest =>
    if c1 = escCh ∧ c2 = '[' ∧ (rest.drop (ansiBodyLen rest)).head?.any isFinalByte
    then some (ansiBodyLen rest + 3) else none
  | _ => none

/-- Fuel-paced worker for the ANSI-escape deletion; every step strictly
shrinks `cs` (a match has positive length), so fuel `cs.length + 1` is never
exhausted. -/
def ansiSubGo (fuel : Nat) (cs : List Char) : List Char :=
  match fuel with
  | 0 => cs
  | fuel + 1 =>
    match ansiMatchAt cs with
    | some n => ansiSubGo fuel (cs.drop n)
    | none =>
      match cs with
      | [] => []
      | c :: rest => c :: ansiSubGo fuel rest

/-- `ANSI_ESCAPE_PATTERN.sub('', ...)`: delete every (leftmost,
non-overlapping) match. -/
def ansiSub (cs : List Char) : List Char :=
  ansiSubGo (cs.length + 1) cs

/-- The eight recognized foreground-color SGR codes (source tag names
`"30"`–`"37"`; `"32"` renders green). -/
def colorCodes : List (List Char) :=
  ["30".data, "31".data, "32".data, "33".data, "34".data, "35".data,
   "36".data, "37".data]

/-- Python `content.split(';')` (empty pieces kept). -/
def splitSemi : List Char → List (List Char)
  | [] => [[]]
  | c :: rest =>
    let r := splitSemi rest
    if c = ';' then [] :: r
    else
      match r with
      | h :: t => (c :: h) :: t
      | [] => [[c]]

/-- The per-code update of `current_tags` in `log_output` (source lines
685-691): `0` or the empty code resets; a recognized color code replaces any
active color (the tag list never holds more than one color, so it is
modelled as an `Option`); anything else is ignored. -/
def applyCode (cur : Option String) (code : List Char) : Option String :=
  if code = "0".data ∨ code = [] then none
  else if code ∈ colorCodes then some (String.mk code)
  else cur

/-- `part.startswith('\x1B[')`. -/
def startsEscBracket : List Char → Bool
  | c1 :: c2 :: _ => c1 = escCh && c2 = '['
  | _ => false

/-- The part-consuming loop of `log_output` (source lines 676-698), carried
out on the pieces produced by `sgrSplit`.  Emits the styled segments that
are inserted into the log text area. -/
def tokenizeParts (cur : Option String) : List (List Char) → List (String × Option String)
  | [] => []
  | part :: rest =>
    if part = [] then tokenizeParts cur rest
    else if startsEscBracket part then
      -- `content = part[2:-1]`, then each `;`-separated code updates the tags
      let content := (part.drop 2).dropLast
      let cur' := (splitSemi content).foldl applyCode cur
      tokenizeParts cur' rest
    else
      let clean := ansiSub part
      if clean = [] then tokenizeParts cur rest
      else (String.mk clean, cur) :: tokenizeParts cur rest

/-- `log_output`'s tokenization of one raw line into styled segments: split on
SGR sequences, then fold the active style over the parts, starting with no
active style. -/
def tokenize (line : String) : List (String × Option String) :=
  tokenizeParts none (sgrSplit line.data)

/-- Concatenated text content of a list of styled segments. -/
def segText (segs : List (String × Option String)) : String :=
  String.join (segs.map (·.1))

/-- The mutable GUI/aggregator state of `VhsDecodeApp` that the decoding
pipeline touches (status `StringVar`s, performance-tracking fields and the
buffered counters of source lines 72-90).  Wall-clock instants are integers;
`decodeFps` is the rational last written to the FPS display. -/
structure GuiState where
  currentFrame : Nat
  timecode : String
  decodeFps : ℚ
  droppedFieldCount : Nat
  trackSkipCount : Nat
  startTime : ℤ
  lastFrame : Nat
  lastTime : ℤ
  lastGuiUpdateTime : ℤ
  frameBuffer : Nat
  droppedFieldBuffer : Nat
  trackSkipBuffer : Nat
  log : List String
deriving Repr, DecidableEq

/-- `_start_decoding`'s state reset (source lines 484-519): clears the log
and the dashboard counters and seeds every tracking variable, in particular
the throttle clock `last_gui_update_time`, with the launch time. -/
def startDecoding (now : ℤ) : GuiState :=
  { currentFrame := 0
    timecode := "00:00:00.00"
    decodeFps := 0
    droppedFieldCount := 0
    trackSkipCount := 0
    startTime := now
    lastFrame := 0
    lastTime := now
    lastGuiUpdateTime := now
    frameBuffer := 0
    droppedFieldBuffer := 0
    trackSkipBuffer := 0
    log := [] }

/-- `_update_gui_status` (source lines 568-597): publish the latest frame and
its timecode, fold both buffered counters into the displayed totals, refresh
the FPS display when the elapsed time is positive, and reset the
FPS-tracking and throttle clocks to `now`. -/
def updateGuiStatus (now : ℤ) (currentFrame : Nat) (s : GuiState) : GuiState :=
  { s with
    currentFrame := currentFrame
    timecode := convert_frame_to_timecode (some (currentFrame : ℤ))
    droppedFieldCount := s.droppedFieldCount + s.droppedFieldBuffer
    droppedFieldBuffer := 0
    trackSkipCount := s.trackSkipCount + s.trackSkipBuffer
    trackSkipBuffer := 0
    decodeFps :=
      if 0 < now - s.lastTime then
        ((currentFrame : ℚ) - (s.lastFrame : ℚ)) / ((now : ℚ) - (s.lastTime : ℚ))
      else s.decodeFps
    lastFrame := currentFrame
    lastTime := now
    lastGuiUpdateTime := now }

/-- A mid-run telemetry emission: `_update_gui_status` fired from
`_process_output_line`, at instant `time`, triggered by the raw line `line`
whose parsed frame number is `frame`. -/
structure Emission where
  time : ℤ
  line : String
  frame : Nat
deriving Repr, DecidableEq

/-- `_process_output_line` (source lines 599-629), instrumented with the
emission it performs, if any: empty lines return immediately; a frame line
updates `frame_buffer` and - only then - runs the 5-second throttle check;
marker lines bump their buffered counter; anything else goes to the log. -/
def processOutputLineE (now : ℤ) (line : String) (s : GuiState) :
    GuiState × Option Emission :=
  if line = "" then (s, none)
  else
    match classify line with
    | .FrameProgress n =>
      let s1 := { s with frameBuffer := n }
      if 5 ≤ now - s1.lastGuiUpdateTime then
        (updateGuiStatus now s1.frameBuffer s1, some ⟨now, line, n⟩)
      else (s1, none)
    | .DroppedField => ({ s with droppedFieldBuffer := s.droppedFieldBuffer + 1 }, none)
    | .TrackSkip => ({ s with trackSkipBuffer := s.trackSkipBuffer + 1 }, none)
    | .PlainLine t => ({ s with log := s.log ++ [t] }, none)

/-- `_process_output_line`, state part only. -/
def processOutputLine (now : ℤ) (line : String) (s : GuiState) : GuiState :=
  (processOutputLineE now line s).1

/-- Process a timed sequence of raw output lines, collecting the mid-run
emissions in order. -/
def runLinesE : GuiState → List (ℤ × String) → GuiState × List Emission
  | s, [] => (s, [])
  | s, p :: rest =>
    ((runLinesE (processOutputLine p.1 p.2 s) rest).1,
      (processOutputLineE p.1 p.2 s).2.toList ++
        (runLinesE (processOutputLine p.1 p.2 s) rest).2)

/-- Final state after processing a timed sequence of raw output lines. -/
def runLines (s : GuiState) (trace : List (ℤ × String)) : GuiState :=
  (runLinesE s trace).1

/-- All intermediate states of a run, the initial one included. -/
def runStates : GuiState → List (ℤ × String) → List GuiState
  | s, [] => [s]
  | s, p :: rest => s :: runStates (processOutputLine p.1 p.2 s) rest

/-- The frame numbers embedded in the trace's frame-progress lines, in
order. -/
def frameValues (trace : List (ℤ × String)) : List Nat :=
  trace.filterMap (fun p => frameSearch p.2.data)

/-- The terminal outcome a finished decode session is reported with. -/
inductive Outcome where
  | Completed
  | Cancelled (exitCode : ℤ)
  | Failed (exitCode : ℤ)
  | FailedMsg (message : String)
deriving Repr, DecidableEq

/-- The outcome classification of `_finalize_decoding` (source lines
642-666): an error message (spawn failure / executable not found) dominates;
exit code `0` is success; exit codes `-2`, `-9`, `143` are reported as
cancelled - unconditionally, with no reference to whether a cancellation was
ever requested; any other exit code is a plain failure carrying the code. -/
def decodeOutcome (returnCode : ℤ) (errorMessage : Option String) : Outcome :=
  match errorMessage with
  | some m => .FailedMsg m
  | none =>
    if returnCode = 0 then .Completed
    else if returnCode = -2 ∨ returnCode = -9 ∨ returnCode = 143 then
      .Cancelled returnCode
    else .Failed returnCode

/-- `_finalize_decoding` (source lines 632-666), instrumented with the final
flush emission, if any: the buffered counts are flushed through
`_update_gui_status` only when `frame_buffer > 0` and strictly positive time
elapsed since the last GUI update; on a clean exit the FPS display is
replaced by the whole-session average when both duration and frame count
are positive. -/
def finalizeDecodingE (now : ℤ) (returnCode : ℤ) (errorMessage : Option String)
    (s : GuiState) : GuiState × Outcome × Option Emission :=
  let flush := 0 < s.frameBuffer ∧ 0 < now - s.lastGuiUpdateTime
  let s1 := if flush then updateGuiStatus now s.frameBuffer s else s
  let fe : Option Emission :=
    if flush then some ⟨now, "", s.frameBuffer⟩ else none
  let s2 :=
    if errorMessage = none ∧ returnCode = 0 ∧ 0 < now - s1.startTime ∧
        0 < s1.currentFrame then
      { s1 with decodeFps := (s1.currentFrame : ℚ) / ((now : ℚ) - (s1.startTime : ℚ)) }
    else s1
  (s2, decodeOutcome returnCode errorMessage, fe)

/-- `_finalize_decoding`, state and outcome only. -/
def finalizeDecoding (now : ℤ) (returnCode : ℤ) (errorMessage : Option String)
    (s : GuiState) : GuiState × Outcome :=
  ((finalizeDecodingE now returnCode errorMessage s).1,
    (finalizeDecodingE now returnCode errorMessage s).2.1)

/-- Number of trace lines the classifier sends to the dropped-field counter. -/
def dropCount (trace : List (ℤ × String)) : Nat :=
  trace.countP (fun p => isDropEvent p.2)

/-- Number of trace lines the classifier sends to the track-skip counter. -/
def skipCount (trace : List (ℤ × String)) : Nat :=
  trace.countP (fun p => isSkipEvent p.2)

/-- Number of trace lines that contain the dropped-field marker, whether or
not they also match the frame pattern. -/
def dropMarkerCount (trace : List (ℤ × String)) : Nat :=
  trace.countP (fun p => containsSub dropMarker p.2.data)

/-- The session-level flags of the app that the cancellation path consults:
`decoding_in_progress`, whether a subprocess handle exists, the exit code
recorded at termination, and whether a terminate signal was already sent
this run (the spec's `CancelRequested` marker; the source tracks it only
implicitly, by having disabled the cancel button). -/
structure Session where
  decodingInProgress : Bool
  hasProcess : Bool
  cancelRequested : Bool
  exitCode : Option ℤ
deriving Repr, DecidableEq

/-- A signal sent to the external process. -/
inductive Sig where
  | terminate
deriving Repr, DecidableEq

/-- `_cancel_decoding` (source lines 283-297): when a decode is in progress
and a process handle exists, send SIGTERM via `process.terminate()` -
unconditionally, even when a cancellation is already pending; otherwise only
show a status message and send nothing. -/
def cancelDecoding (s : Session) : Session × List Sig :=
  if s.decodingInProgress ∧ s.hasProcess then
    ({ s with cancelRequested := true }, [Sig.terminate])
  else (s, [])

/-- The session-flag effect of `_finalize_decoding` (source line 638):
decoding stops being in progress and the exit code becomes observable. -/
def finalizeSession (returnCode : ℤ) (errorMessage : Option String)
    (s : Session) : Session × Outcome :=
  ({ s with decodingInProgress := false, exitCode := some returnCode },
    decodeOutcome returnCode errorMessage)

/-! ### Helper lemmas about the classifier and the processing step -/

theorem frameSearch_of_classify {l : String} {n : Nat}
    (h : classify l = .FrameProgress n) : frameSearch l.data = some n := by
  unfold classify at h
  cases hm : frameSearch l.data with
  | some m => rw [hm] at h; injection h with h; rw [h]
  | none =>
    rw [hm] at h
    by_cases h1 : containsSub dropMarker l.data = true
    · simp [h1] at h
    · by_cases h2 : containsSub skipMarker l.data = true <;> simp [h1, h2] at h

theorem frameSearch_none_of_drop {l : String}
    (h : classify l = .DroppedField) : frameSearch l.data = none := by
  unfold classify at h
  cases hm : frameSearch l.data with
  | some m => rw [hm] at h; cases h
  | none => rfl

theorem frameSearch_none_of_skip {l : String}
    (h : classify l = .TrackSkip) : frameSearch l.data = none := by
  unfold classify at h
  cases hm : frameSearch l.data with
  | some m => rw [hm] at h; cases h
  | none => rfl

theorem frameSearch_none_of_plain {l t : String}
    (h : classify l = .PlainLine t) : frameSearch l.data = none := by
  unfold classify at h
  cases hm : frameSearch l.data with
  | some m => rw [hm] at h; cases h
  | none => rfl

/-! Per-branch characterization equations for `processOutputLineE`. -/

theorem pol_empty (t : ℤ) (s : GuiState) :
    processOutputLineE t "" s = (s, none) := by
  simp [processOutputLineE]

theorem pol_frame_emit {l : String} {n : Nat} (t : ℤ) (s : GuiState)
    (hl : l ≠ "") (hc : classify l = .FrameProgress n)
    (hthr : 5 ≤ t - s.lastGuiUpdateTime) :
    processOutputLineE t l s =
      (updateGuiStatus t n { s with frameBuffer := n }, some ⟨t, l, n⟩) := by
  unfold processOutputLineE
  rw [if_neg hl]
  simp only [hc, if_pos hthr]

theorem pol_frame_noemit {l : String} {n : Nat} (t : ℤ) (s : GuiState)
    (hl : l ≠ "") (hc : classify l = .FrameProgress n)
    (hthr : ¬ 5 ≤ t - s.lastGuiUpdateTime) :
    processOutputLineE t l s = ({ s with frameBuffer := n }, none) := by
  unfold processOutputLineE
  rw [if_neg hl]
  simp only [hc, if_neg hthr]

theorem pol_drop {l : String} (t : ℤ) (s : GuiState)
    (hl : l ≠ "") (hc : classify l = .DroppedField) :
    processOutputLineE t l s =
      ({ s with droppedFieldBuffer := s.droppedFieldBuffer + 1 }, none) := by
  unfold processOutputLineE
  rw [if_neg hl]
  simp only [hc]

theorem pol_skip {l : String} (t : ℤ) (s : GuiState)
    (hl : l ≠ "") (hc : classify l = .TrackSkip) :
    processOutputLineE t l s =
      ({ s with trackSkipBuffer := s.trackSkipBuffer + 1 }, none) := by
  unfold processOutputLineE
  rw [if_neg hl]
  simp only [hc]

theorem pol_plain {l u : String} (t : ℤ) (s : GuiState)
    (hl : l ≠ "") (hc : classify l = .PlainLine u) :
    processOutputLineE t l s = ({ s with log := s.log ++ [u] }, none) := by
  unfold processOutputLineE
  rw [if_neg hl]
  simp only [hc]

/-- A step that performs no emission leaves the throttle clock alone. -/
theorem lastGui_of_no_emit {t : ℤ} {l : String} {s : GuiState}
    (h : (processOutputLineE t l s).2 = none) :
    (processOutputLineE t l s).1.lastGuiUpdateTime = s.lastGuiUpdateTime := by
  by_cases hl : l = ""
  · subst hl; rw [pol_empty]
  · cases hc : classify l with
    | FrameProgress n =>
      by_cases hthr : 5 ≤ t - s.lastGuiUpdateTime
      · rw [pol_frame_emit t s hl hc hthr] at h
        cases h
      · rw [pol_frame_noemit t s hl hc hthr]
    | DroppedField => rw [pol_drop t s hl hc]
    | TrackSkip => rw [pol_skip t s hl hc]
    | PlainLine u => rw [pol_plain t s hl hc]

/-- Facts about a step that does emit: the emission carries the step's
instant and line, the line is a frame line, the throttle interval had
elapsed, and the throttle clock is reset to the emission instant. -/
theorem emit_facts {t : ℤ} {l : String} {s : GuiState} {e : Emission}
    (h : (processOutputLineE t l s).2 = some e) :
    e.time = t ∧ e.line = l ∧ frameSearch l.data = some e.frame ∧
      s.lastGuiUpdateTime + 5 ≤ e.time ∧
      (processOutputLineE t l s).1.lastGuiUpdateTime = e.time := by
  by_cases hl : l = ""
  · rw [hl, pol_empty] at h; cases h
  · cases hc : classify l with
    | FrameProgress n =>
      by_cases hthr : 5 ≤ t - s.lastGuiUpdateTime
      · rw [pol_frame_emit t s hl hc hthr] at h ⊢
        injection h with h
        subst h
        refine ⟨rfl, rfl, frameSearch_of_classify hc, ?_, ?_⟩
        · show s.lastGuiUpdateTime + 5 ≤ t
          omega
        · show (updateGuiStatus t n { s with frameBuffer := n }).lastGuiUpdateTime = t
          simp [updateGuiStatus]
      · rw [pol_frame_noemit t s hl hc hthr] at h; cases h
    | DroppedField => rw [pol_drop t s hl hc] at h; cases h
    | TrackSkip => rw [pol_skip t s hl hc] at h; cases h
    | PlainLine u => rw [pol_plain t s hl hc] at h; cases h

/-- Master lemma on an instrumented run: every mid-run emission happens at
least one full throttle interval after the initial throttle clock, is one of
the trace's instants and lines, and is triggered by a frame-progress line;
consecutive emissions are at least one interval apart. -/
theorem runLinesE_spec : ∀ (trace : List (ℤ × String)) (s : GuiState),
    (∀ e ∈ (runLinesE s trace).2,
      s.lastGuiUpdateTime + 5 ≤ e.time ∧ (e.time, e.line) ∈ trace ∧
        frameSearch e.line.data = some e.frame) ∧
    List.Chain' (fun a b => a.time + 5 ≤ b.time) (runLinesE s trace).2 := by
  intro trace
  induction trace with
  | nil => intro s; simp [runLinesE]
  | cons p rest ih =>
    intro s
    have ih1 := (ih (processOutputLine p.1 p.2 s)).1
    have ih2 := (ih (processOutputLine p.1 p.2 s)).2
    cases he : (processOutputLineE p.1 p.2 s).2 with
    | none =>
      have hlg := lastGui_of_no_emit he
      constructor
      · intro e hm
        simp only [runLinesE, he, Option.toList_none, List.nil_append] at hm
        obtain ⟨h1, h2, h3⟩ := ih1 e hm
        rw [processOutputLine] at h1
        rw [hlg] at h1
        exact ⟨h1, List.mem_cons_of_mem _ h2, h3⟩
      · simpa only [runLinesE, he, Option.toList_none, List.nil_append] using ih2
    | some e0 =>
      obtain ⟨ht, hl, hf, hge, hnew⟩ := emit_facts he
      constructor
      · intro e hm
        simp only [runLinesE, he, Option.toList_some, List.cons_append,
          List.nil_append, List.mem_cons] at hm
        cases hm with
        | inl hm =>
          subst hm
          refine ⟨hge, ?_, ?_⟩
          · rw [ht, hl]
            exact List.mem_cons_self _ _
          · rw [hl]
            exact hf
        | inr hm =>
          obtain ⟨h1, h2, h3⟩ := ih1 e hm
          rw [processOutputLine, hnew] at h1
          exact ⟨by omega, List.mem_cons_of_mem _ h2, h3⟩
      · simp only [runLinesE, he, Option.toList_some, List.cons_append,
          List.nil_append]
        refine List.chain'_cons'.mpr ⟨?_, ih2⟩
        intro b hb
        have hbm : b ∈ (runLinesE (processOutputLine p.1 p.2 s) rest).2 :=
          List.mem_of_mem_head? hb
        have := (ih1 b hbm).1
        rw [processOutputLine, hnew] at this
        omega

/-- One processing step preserves the bookkeeping identity `displayed total
+ buffered count = previous sum + (1 if this line is a drop/skip line)`. -/
theorem step_counters (t : ℤ) (l : String) (s : GuiState) :
    (processOutputLine t l s).droppedFieldCount +
        (processOutputLine t l s).droppedFieldBuffer =
      s.droppedFieldCount + s.droppedFieldBuffer +
        (if isDropEvent l then 1 else 0) ∧
    (processOutputLine t l s).trackSkipCount +
        (processOutputLine t l s).trackSkipBuffer =
      s.trackSkipCount + s.trackSkipBuffer +
        (if isSkipEvent l then 1 else 0) := by
  unfold processOutputLine
  by_cases hl : l = ""
  · subst hl
    rw [pol_empty]
    constructor <;> simp [isDropEvent, isSkipEvent, classify, frameSearch,
      containsSub, dropMarker, skipMarker]
  · cases hc : classify l with
    | FrameProgress n =>
      have hd : isDropEvent l = false := by simp [isDropEvent, hc]
      have hs : isSkipEvent l = false := by simp [isSkipEvent, hc]
      by_cases hthr : 5 ≤ t - s.lastGuiUpdateTime
      · rw [pol_frame_emit t s hl hc hthr]
        constructor <;> simp [updateGuiStatus, hd, hs]
      · rw [pol_frame_noemit t s hl hc hthr]
        constructor <;> simp [hd, hs]
    | DroppedField =>
      have hd : isDropEvent l = true := by simp [isDropEvent, hc]
      have hs : isSkipEvent l = false := by simp [isSkipEvent, hc]
      rw [pol_drop t s hl hc]
      constructor <;> simp [hd, hs] <;> omega
    | TrackSkip =>
      have hd : isDropEvent l = false := by simp [isDropEvent, hc]
      have hs : isSkipEvent l = true := by simp [isSkipEvent, hc]
      rw [pol_skip t s hl hc]
      constructor <;> simp [hd, hs] <;> omega
    | PlainLine u =>
      have hd : isDropEvent l = false := by simp [isDropEvent, hc]
      have hs : isSkipEvent l = false := by simp [isSkipEvent, hc]
      rw [pol_plain t s hl hc]
      constructor <;> simp [hd, hs]

/-- Across a whole run the buffered and displayed drop/skip counters add up
to the exact number of drop/skip-classified lines, regardless of when (or
whether) throttled GUI updates fired. -/
theorem run_counters : ∀ (trace : List (ℤ × String)) (s : GuiState),
    (runLines s trace).droppedFieldCount + (runLines s trace).droppedFieldBuffer =
      s.droppedFieldCount + s.droppedFieldBuffer + dropCount trace ∧
    (runLines s trace).trackSkipCount + (runLines s trace).trackSkipBuffer =
      s.trackSkipCount + s.trackSkipBuffer + skipCount trace := by
  intro trace
  induction trace with
  | nil => intro s; simp [runLines, runLinesE, dropCount, skipCount]
  | cons p rest ih =>
    intro s
    have hstep := step_counters p.1 p.2 s
    have hrun : runLines s (p :: rest) = runLines (processOutputLine p.1 p.2 s) rest := by
      simp [runLines, runLinesE]
    obtain ⟨ih1, ih2⟩ := ih (processOutputLine p.1 p.2 s)
    rw [hrun]
    constructor
    · rw [ih1, hstep.1]
      simp only [dropCount, List.countP_cons]
      by_cases hd : isDropEvent p.2 <;> simp [hd] <;> omega
    · rw [ih2, hstep.2]
      simp only [skipCount, List.countP_cons]
      by_cases hs : isSkipEvent p.2 <;> simp [hs] <;> omega

/-- The per-state quantities the spec calls the published telemetry:
`current_frame`, `dropped_field_count`, `track_skip_count` are all
non-decreasing from `a` to `b`. -/
def countersLE (a b : GuiState) : Prop :=
  a.currentFrame ≤ b.currentFrame ∧
    a.droppedFieldCount ≤ b.droppedFieldCount ∧
    a.trackSkipCount ≤ b.trackSkipCount

/-- Lower bound on the head of a list of frame numbers. -/
def lbHead (b : Nat) : List Nat → Prop
  | [] => True
  | n :: _ => b ≤ n

/-- One processing step: the published counters do not decrease and the
frame invariant `currentFrame ≤ frameBuffer` is maintained, provided any
frame number on this line is at least the current `frameBuffer`. -/
theorem step_mono (t : ℤ) (l : String) (s : GuiState)
    (hinv : s.currentFrame ≤ s.frameBuffer)
    (hlb : ∀ n, frameSearch l.data = some n → s.frameBuffer ≤ n) :
    countersLE s (processOutputLine t l s) ∧
      (processOutputLine t l s).currentFrame ≤ (processOutputLine t l s).frameBuffer ∧
      (frameSearch l.data = none →
        (processOutputLine t l s).frameBuffer = s.frameBuffer) ∧
      (∀ n, frameSearch l.data = some n →
        (processOutputLine t l s).frameBuffer = n) := by
  unfold processOutputLine
  by_cases hl : l = ""
  · subst hl
    rw [pol_empty]
    exact ⟨⟨le_refl _, le_refl _, le_refl _⟩, hinv, fun _ => rfl, fun n h => by
      simp [frameSearch] at h⟩
  · cases hc : classify l with
    | FrameProgress n =>
      have hf := frameSearch_of_classify hc
      have hbn : s.frameBuffer ≤ n := hlb n hf
      by_cases hthr : 5 ≤ t - s.lastGuiUpdateTime
      · rw [pol_frame_emit t s hl hc hthr]
        refine ⟨⟨?_, ?_, ?_⟩, ?_, ?_, ?_⟩
        · show s.currentFrame ≤ n
          omega
        · show s.droppedFieldCount ≤ s.droppedFieldCount + s.droppedFieldBuffer
          omega
        · show s.trackSkipCount ≤ s.trackSkipCount + s.trackSkipBuffer
          omega
        · show n ≤ n
          exact le_refl _
        · intro hn; rw [hn] at hf; cases hf
        · intro m hm
          show n = m
          rw [hf] at hm
          exact Option.some.inj hm

      · rw [pol_frame_noemit t s hl hc hthr]
        refine ⟨⟨le_refl _, le_refl _, le_refl _⟩, ?_, ?_, ?_⟩
        · show s.currentFrame ≤ n
          omega
        · intro hn; rw [hn] at hf; cases hf
        · intro m hm
          show n = m
          rw [hf] at hm
          exact Option.some.inj hm
    | DroppedField =>
      rw [pol_drop t s hl hc]
      exact ⟨⟨le_refl _, le_refl _, le_refl _⟩, hinv, fun _ => rfl, fun n h => by
        rw [frameSearch_none_of_drop hc] at h; cases h⟩
    | TrackSkip =>
      rw [pol_skip t s hl hc]
      exact ⟨⟨le_refl _, le_refl _, le_refl _⟩, hinv, fun _ => rfl, fun n h => by
        rw [frameSearch_none_of_skip hc] at h; cases h⟩
    | PlainLine u =>
      rw [pol_plain t s hl hc]
      exact ⟨⟨le_refl _, le_refl _, le_refl _⟩, hinv, fun _ => rfl, fun n h => by
        rw [frameSearch_none_of_plain hc] at h; cases h⟩

/-- The head state of `runStates` is the initial state. -/
theorem runStates_head (s : GuiState) :
    ∀ trace, (runStates s trace).head? = some s := by
  intro trace
  cases trace <;> rfl

/-- Monotonicity of the published telemetry along a run, given that the
frame numbers arriving on frame lines are non-decreasing and at least the
current buffered frame. -/
theorem runStates_mono : ∀ (trace : List (ℤ × String)) (s : GuiState),
    s.currentFrame ≤ s.frameBuffer →
    lbHead s.frameBuffer (frameValues trace) →
    List.Chain' (· ≤ ·) (frameValues trace) →
    List.Chain' countersLE (runStates s trace) := by
  intro trace
  induction trace with
  | nil =>
    intro s _ _ _
    simp [runStates]
  | cons p rest ih =>
    intro s hinv hlb hchain
    have hlb' : ∀ n, frameSearch p.2.data = some n → s.frameBuffer ≤ n := by
      intro n hn
      have : frameValues (p :: rest) = n :: frameValues rest := by
        simp [frameValues, List.filterMap_cons, hn]
      rw [this] at hlb
      exact hlb
    obtain ⟨hle, hinv', hkeep, hset⟩ := step_mono p.1 p.2 s hinv hlb'
    show List.Chain' countersLE (s :: runStates (processOutputLine p.1 p.2 s) rest)
    refine List.chain'_cons'.mpr ⟨?_, ?_⟩
    · intro y hy
      rw [runStates_head _ rest] at hy
      cases hy
      exact hle
    · cases hn : frameSearch p.2.data with
      | some n =>
        have hfv : frameValues (p :: rest) = n :: frameValues rest := by
          simp [frameValues, List.filterMap_cons, hn]
        rw [hfv] at hchain
        refine ih (processOutputLine p.1 p.2 s) hinv' ?_ (List.chain'_cons'.mp hchain).2
        rw [hset n hn]
        cases hfv' : frameValues rest with
        | nil => trivial
        | cons m tail =>
          show n ≤ m
          have := (List.chain'_cons'.mp hchain).1 m
          rw [hfv'] at this
          exact this rfl
      | none =>
        have hfv : frameValues (p :: rest) = frameValues rest := by
          simp [frameValues, List.filterMap_cons, hn]
        rw [hfv] at hlb hchain
        refine ih (processOutputLine p.1 p.2 s) hinv' ?_ hchain
        rw [hkeep hn]
        exact hlb

/-- The displayed cumulative drop/skip counters are non-decreasing from `a`
to `b`. -/
def dropSkipLE (a b : GuiState) : Prop :=
  a.droppedFieldCount ≤ b.droppedFieldCount ∧
    a.trackSkipCount ≤ b.trackSkipCount

/-- One processing step never decreases the displayed drop/skip counters,
whatever the line is: they are either untouched or incremented by the
buffered counts inside `_update_gui_status`. -/
theorem step_counts_mono (t : ℤ) (l : String) (s : GuiState) :
    dropSkipLE s (processOutputLine t l s) := by
  unfold processOutputLine
  by_cases hl : l = ""
  · subst hl
    rw [pol_empty]
    exact ⟨le_refl _, le_refl _⟩
  · cases hc : classify l with
    | FrameProgress n =>
      by_cases hthr : 5 ≤ t - s.lastGuiUpdateTime
      · rw [pol_frame_emit t s hl hc hthr]
        constructor
        · show s.droppedFieldCount ≤ s.droppedFieldCount + s.droppedFieldBuffer
          omega
        · show s.trackSkipCount ≤ s.trackSkipCount + s.trackSkipBuffer
          omega
      · rw [pol_frame_noemit t s hl hc hthr]
        exact ⟨le_refl _, le_refl _⟩
    | DroppedField =>
      rw [pol_drop t s hl hc]
      exact ⟨le_refl _, le_refl _⟩
    | TrackSkip =>
      rw [pol_skip t s hl hc]
      exact ⟨le_refl _, le_refl _⟩
    | PlainLine u =>
      rw [pol_plain t s hl hc]
      exact ⟨le_refl _, le_refl _⟩

/-- The displayed drop/skip counters are non-decreasing along every run,
with no assumption whatsoever on the trace. -/
theorem runStates_counts_mono : ∀ (trace : List (ℤ × String)) (s : GuiState),
    List.Chain' dropSkipLE (runStates s trace) := by
  intro trace
  induction trace with
  | nil =>
    intro s
    simp [runStates]
  | cons p rest ih =>
    intro s
    show List.Chain' dropSkipLE (s :: runStates (processOutputLine p.1 p.2 s) rest)
    refine List.chain'_cons'.mpr ⟨?_, ih (processOutputLine p.1 p.2 s)⟩
    intro y hy
    rw [runStates_head _ rest] at hy
    cases hy
    exact step_counts_mono p.1 p.2 s

/-- The final flush of `_finalize_decoding` fires whenever a positive frame
number is buffered and any strictly positive time has elapsed since the last
GUI update - the 5-unit throttle interval is not consulted. -/
theorem finalize_flush_emits (now rc : ℤ) (err : Option String) (s : GuiState)
    (hfb : 0 < s.frameBuffer) (ht : 0 < now - s.lastGuiUpdateTime) :
    (finalizeDecodingE now rc err s).2.2 =
      some ⟨now, "", s.frameBuffer⟩ := by
  show (if 0 < s.frameBuffer ∧ 0 < now - s.lastGuiUpdateTime then
      some (⟨now, "", s.frameBuffer⟩ : Emission) else none) =
    some ⟨now, "", s.frameBuffer⟩
  exact if_pos ⟨hfb, ht⟩

/-! ### Claims -/

/-- C1, counterexample: the claim requires the outcome `Cancelled` only when
a cancellation had been requested, and `Failed` with the raw code for any
other non-zero exit.  In the code, a session that never requested
cancellation (`cancelRequested = false`) and exits with code `-9` is
nevertheless reported `Cancelled (-9)`, not `Failed (-9)` - the exit-code
branch of `_finalize_decoding` never consults the cancellation state. -/
theorem C1_counterexample :
    (Session.mk true true false none).cancelRequested = false ∧
      (finalizeSession (-9) none (Session.mk true true false none)).2 =
        Outcome.Cancelled (-9) ∧
      (finalizeSession (-9) none (Session.mk true true false none)).2 ≠
        Outcome.Failed (-9) := by
  refine ⟨rfl, rfl, ?_⟩
  intro h
  cases h

/-- C1, amended: for every terminated session the outcome is `Cancelled`
exactly when the exit code lies in the signal-termination set
`{-2, -9, 143}` - irrespective of whether a cancellation was requested
(`finalizeSession` ignores the session flags entirely) - and any other
non-zero exit code yields `Failed` carrying that raw exit code. -/
theorem C1_exit_outcome (s : Session) (rc : ℤ) (hrc : rc ≠ 0) :
    ((finalizeSession rc none s).2 = Outcome.Cancelled rc ↔
      (rc = -2 ∨ rc = -9 ∨ rc = 143)) ∧
    (¬ (rc = -2 ∨ rc = -9 ∨ rc = 143) →
      (finalizeSession rc none s).2 = Outcome.Failed rc) := by
  unfold finalizeSession decodeOutcome
  by_cases hsig : rc = -2 ∨ rc = -9 ∨ rc = 143
  · simp [hrc, hsig]
  · simp [hrc, hsig]

/-- C1 witness: the amended claim evaluated at exit code `7`. -/
theorem C1_exit_outcome_witness :
    ((finalizeSession 7 none (Session.mk true true true none)).2 =
        Outcome.Cancelled 7 ↔ ((7 : ℤ) = -2 ∨ (7 : ℤ) = -9 ∨ (7 : ℤ) = 143)) ∧
    (¬ ((7 : ℤ) = -2 ∨ (7 : ℤ) = -9 ∨ (7 : ℤ) = 143) →
      (finalizeSession 7 none (Session.mk true true true none)).2 =
        Outcome.Failed 7) :=
  C1_exit_outcome (Session.mk true true true none) 7 (by decide)

/-- C5: `classify` is a total function producing exactly one event per line,
by first match in the fixed order frame pattern, dropped-field marker,
skipped-track marker, plain line; a line matching both the frame pattern
and a marker is `FrameProgress`, and the spec's concrete examples hold. -/
theorem C5_classify_precedence (line : String) (n : Nat) :
    (frameSearch line.data = some n → classify line = .FrameProgress n) ∧
    (frameSearch line.data = none → containsSub dropMarker line.data = true →
      classify line = .DroppedField) ∧
    (frameSearch line.data = none → containsSub dropMarker line.data = false →
      containsSub skipMarker line.data = true → classify line = .TrackSkip) ∧
    (frameSearch line.data = none → containsSub dropMarker line.data = false →
      containsSub skipMarker line.data = false →
      classify line = .PlainLine line) ∧
    classify "File Frame 42: VHS" = .FrameProgress 42 ∧
    classify "...dropping field..." = .DroppedField ∧
    classify "File Frame 1: VHS dropping field" = .FrameProgress 1 := by
  refine ⟨?_, ?_, ?_, ?_, rfl, rfl, rfl⟩
  · intro h
    simp [classify, h]
  · intro h h1
    simp [classify, h, h1]
  · intro h h1 h2
    simp [classify, h, h1, h2]
  · intro h h1 h2
    simp [classify, h, h1, h2]

/-- C5 witness: the precedence branches evaluated on concrete lines. -/
theorem C5_classify_precedence_witness :
    classify "File Frame 42: VHS" = .FrameProgress 42 ∧
      classify "a dropping field b" = .DroppedField ∧
      classify "a skipped a track b" = .TrackSkip ∧
      classify "hello" = .PlainLine "hello" :=
  ⟨(C5_classify_precedence "File Frame 42: VHS" 42).1 rfl,
    (C5_classify_precedence "a dropping field b" 0).2.1 rfl rfl,
    (C5_classify_precedence "a skipped a track b" 0).2.2.1 rfl rfl rfl,
    (C5_classify_precedence "hello" 0).2.2.2.1 rfl rfl rfl⟩

/-- C6: for every non-negative integer `f`, the four fields of
`convert_frame_to_timecode (some f)` at 25 fps recombine, via
`hours*3600*25 + minutes*60*25 + seconds*25 + frames`, to exactly `f`;
the emitted string is precisely the two-digit-zero-padded rendering of
those four fields. -/
theorem C6_timecode_roundtrip (f : Nat) :
    tcHours f * (3600 * 25) + tcMinutes f * (60 * 25) + tcSeconds f * 25 +
        tcFrames f = (f : ℤ) ∧
      convert_frame_to_timecode (some (f : ℤ)) =
        pad2 (tcHours f) ++ ":" ++ pad2 (tcMinutes f) ++ ":" ++
          pad2 (tcSeconds f) ++ "." ++ pad2 (tcFrames f) := by
  constructor
  · unfold tcHours tcMinutes tcSeconds tcFrames
    omega
  · rfl

/-- C8: on non-numeric or malformed input (an argument on which Python's
`int(...)` conversion raises, modelled by `none`) the converter returns the
zero timecode rather than failing; it is a total function. -/
theorem C8_malformed_timecode :
    convert_frame_to_timecode none = "00:00:00.00" := rfl

/-- C9, counterexample: the claim calls repeated cancellation while a cancel
is already pending a no-op that "sends no signal".  In the code a second
`_cancel_decoding` call on a still-running, already-cancelled session sends
`terminate` again. -/
theorem C9_counterexample :
    (Session.mk true true true none).cancelRequested = true ∧
      (cancelDecoding (Session.mk true true true none)).2 = [Sig.terminate] ∧
      (cancelDecoding (Session.mk true true true none)).2 ≠ ([] : List Sig) := by
  refine ⟨rfl, rfl, ?_⟩
  intro h
  cases h

/-- C9, amended: cancelling a session that is no longer decoding (any
terminal state) is a true no-op - no signal is sent and the session record,
its `exitCode` included, is returned unchanged; a repeated cancel while the
session is still running re-sends the terminate signal but changes nothing
observable in the session state except the (already-set) cancellation
marker, and never touches `exitCode` or `decodingInProgress`. -/
theorem C9_cancel_noop (s : Session) :
    (s.decodingInProgress = false → cancelDecoding s = (s, [])) ∧
    (s.decodingInProgress = true → s.hasProcess = true →
      cancelDecoding s = ({ s with cancelRequested := true }, [Sig.terminate]) ∧
        (cancelDecoding s).1.exitCode = s.exitCode ∧
        (cancelDecoding s).1.decodingInProgress = s.decodingInProgress) := by
  constructor
  · intro h
    simp [cancelDecoding, h]
  · intro h1 h2
    simp [cancelDecoding, h1, h2]

/-- C9 witness: the no-op on a finished session and the re-send on a
running, already-cancelled session, both at concrete states. -/
theorem C9_cancel_noop_witness :
    cancelDecoding (Session.mk false true true (some 143)) =
        (Session.mk false true true (some 143), []) ∧
      cancelDecoding (Session.mk true true true none) =
        ({ Session.mk true true true none with cancelRequested := true },
          [Sig.terminate]) :=
  ⟨(C9_cancel_noop (Session.mk false true true (some 143))).1 rfl,
    ((C9_cancel_noop (Session.mk true true true none)).2 rfl rfl).1⟩

/-- C2, counterexample, two concrete runs.  (i) A run consisting of the
single line `"dropping field"` and no frame line: after `finalize` the
displayed dropped total is `0`, not the `1` line containing the marker -
the final flush is gated on `frame_buffer > 0`, so buffered counts are
discarded when no (positive) frame number was ever parsed.  (ii) A run
consisting of the single line `"File Frame 1: VHS dropping field"`: the
line contains the dropped-field marker but is classified `FrameProgress`,
so even though `finalize` flushes, the dropped total is `0`, not `1`. -/
theorem C2_counterexample :
    (finalizeDecoding 7 0 none
        (runLines (startDecoding 0) [(6, "dropping field")])).1.droppedFieldCount = 0 ∧
      dropMarkerCount [((6 : ℤ), "dropping field")] = 1 ∧
      (finalizeDecoding 7 0 none
        (runLines (startDecoding 0)
          [(6, "File Frame 1: VHS dropping field")])).1.droppedFieldCount = 0 ∧
      dropMarkerCount [((6 : ℤ), "File Frame 1: VHS dropping field")] = 1 :=
  ⟨rfl, rfl, rfl, rfl⟩

/-- C2, amended: for any sequence of raw input lines followed by one
`finalize`, the displayed dropped and skip totals equal exactly the number
of lines *classified* as dropped-field / track-skip events (a line matching
the frame pattern is `FrameProgress` even if it contains a marker),
regardless of when throttled snapshots were or were not emitted during the
run - provided the final flush fires, i.e. the last parsed frame number is
positive and strictly positive time elapsed since the last GUI update. -/
theorem C2_totals_exact (start now rc : ℤ) (err : Option String)
    (trace : List (ℤ × String))
    (hfb : 0 < (runLines (startDecoding start) trace).frameBuffer)
    (hlt : (runLines (startDecoding start) trace).lastGuiUpdateTime < now) :
    (finalizeDecoding now rc err
        (runLines (startDecoding start) trace)).1.droppedFieldCount =
      dropCount trace ∧
    (finalizeDecoding now rc err
        (runLines (startDecoding start) trace)).1.trackSkipCount =
      skipCount trace := by
  have hd := (run_counters trace (startDecoding start)).1
  have hs := (run_counters trace (startDecoding start)).2
  have e1 : (startDecoding start).droppedFieldCount = 0 := rfl
  have e2 : (startDecoding start).droppedFieldBuffer = 0 := rfl
  have e3 : (startDecoding start).trackSkipCount = 0 := rfl
  have e4 : (startDecoding start).trackSkipBuffer = 0 := rfl
  rw [e1, e2] at hd
  rw [e3, e4] at hs
  have hflush : 0 < (runLines (startDecoding start) trace).frameBuffer ∧
      0 < now - (runLines (startDecoding start) trace).lastGuiUpdateTime :=
    ⟨hfb, by omega⟩
  unfold finalizeDecoding finalizeDecodingE
  simp only [if_pos hflush]
  constructor
  · split
    · simp [updateGuiStatus]
      omega
    · simp [updateGuiStatus]
      omega
  · split
    · simp [updateGuiStatus]
      omega
    · simp [updateGuiStatus]
      omega

/-- C2 witness: a run with marker lines landing both inside and outside an
emission window; the totals equal the classified counts after `finalize`. -/
theorem C2_totals_exact_witness :
    (0 < (runLines (startDecoding 0)
        [(1, "dropping field"), (2, "a skipped a track b"),
          (6, "File Frame 3: VHS"), (7, "dropping field")]).frameBuffer) ∧
    ((runLines (startDecoding 0)
        [(1, "dropping field"), (2, "a skipped a track b"),
          (6, "File Frame 3: VHS"), (7, "dropping field")]).lastGuiUpdateTime < 8) ∧
    (finalizeDecoding 8 0 none
        (runLines (startDecoding 0)
          [(1, "dropping field"), (2, "a skipped a track b"),
            (6, "File Frame 3: VHS"), (7, "dropping field")])).1.droppedFieldCount =
      dropCount [((1 : ℤ), "dropping field"), (2, "a skipped a track b"),
        (6, "File Frame 3: VHS"), (7, "dropping field")] ∧
    (finalizeDecoding 8 0 none
        (runLines (startDecoding 0)
          [(1, "dropping field"), (2, "a skipped a track b"),
            (6, "File Frame 3: VHS"), (7, "dropping field")])).1.trackSkipCount =
      skipCount [((1 : ℤ), "dropping field"), (2, "a skipped a track b"),
        (6, "File Frame 3: VHS"), (7, "dropping field")] := by
  refine ⟨by decide, by decide, ?_, ?_⟩
  · exact (C2_totals_exact 0 8 0 none _ (by decide) (by decide)).1
  · exact (C2_totals_exact 0 8 0 none _ (by decide) (by decide)).2

/-- C3, counterexample: the published frame value can decrease within one
session.  Starting a session at time 0 and ingesting `File Frame 10: VHS`
at time 5 (emitted) and then `File Frame 3: VHS` at time 10 (emitted), the
displayed `current_frame` sequence is `0, 10, 3` - not non-decreasing. -/
theorem C3_counterexample :
    (runStates (startDecoding 0)
        [(5, "File Frame 10: VHS"), (10, "File Frame 3: VHS")]).map
        (fun s => s.currentFrame) = [0, 10, 3] ∧
      ¬ List.Chain' (· ≤ ·) [0, 10, 3] := by
  refine ⟨rfl, ?_⟩
  intro h
  have := (List.chain'_cons.mp (List.chain'_cons.mp h).2).1
  omega

/-- C3, amended: within one session the published `droppedCount` and
`skippedTrackCount` never decrease over any sequence of ingest/emit
operations - unconditionally, for every trace - and the published `frame`
also never decreases provided the frame numbers arriving on the session's
frame lines are non-decreasing; all three are reset to 0 when a new session
starts. -/
theorem C3_monotone (start : ℤ) (trace : List (ℤ × String)) :
    ((startDecoding start).currentFrame = 0 ∧
      (startDecoding start).droppedFieldCount = 0 ∧
      (startDecoding start).trackSkipCount = 0) ∧
    List.Chain' dropSkipLE (runStates (startDecoding start) trace) ∧
    (List.Chain' (· ≤ ·) (frameValues trace) →
      List.Chain' countersLE (runStates (startDecoding start) trace)) := by
  refine ⟨⟨rfl, rfl, rfl⟩,
    runStates_counts_mono trace (startDecoding start), ?_⟩
  intro hframes
  refine runStates_mono trace (startDecoding start) ?_ ?_ hframes
  · exact le_refl 0
  · cases frameValues trace with
    | nil => trivial
    | cons n tail => exact Nat.zero_le n

/-- C3 witness: the amended claim at a concrete trace - the drop/skip chain
needs no side condition, and the frame chain's proviso is discharged on a
monotone-frame run. -/
theorem C3_monotone_witness :
    ((startDecoding 0).currentFrame = 0 ∧
      (startDecoding 0).droppedFieldCount = 0 ∧
      (startDecoding 0).trackSkipCount = 0) ∧
    List.Chain' dropSkipLE (runStates (startDecoding 0)
      [(5, "File Frame 10: VHS"), (7, "dropping field"),
        (11, "File Frame 12: VHS")]) ∧
    List.Chain' countersLE (runStates (startDecoding 0)
      [(5, "File Frame 10: VHS"), (7, "dropping field"),
        (11, "File Frame 12: VHS")]) :=
  ⟨(C3_monotone 0 [(5, "File Frame 10: VHS"), (7, "dropping field"),
      (11, "File Frame 12: VHS")]).1,
    (C3_monotone 0 [(5, "File Frame 10: VHS"), (7, "dropping field"),
      (11, "File Frame 12: VHS")]).2.1,
    (C3_monotone 0 [(5, "File Frame 10: VHS"), (7, "dropping field"),
      (11, "File Frame 12: VHS")]).2.2 (by
        show List.Chain' (· ≤ ·) ([10, 12] : List Nat)
        exact List.chain'_cons.mpr ⟨by norm_num, List.chain'_singleton _⟩)⟩

/-- C4: any two snapshots emitted by the throttled mid-run path are
separated by at least the 5-unit throttle interval; every such snapshot is
triggered by (and carries) a frame-progress line of the trace; and the
single flush performed by `finalize` is exempt from the interval - it fires
for any strictly positive elapsed time since the last GUI update, provided
a positive frame number has been seen. -/
theorem C4_throttle (start : ℤ) (trace : List (ℤ × String)) :
    List.Chain' (fun a b => a.time + 5 ≤ b.time)
      (runLinesE (startDecoding start) trace).2 ∧
    (∀ e ∈ (runLinesE (startDecoding start) trace).2,
      frameSearch e.line.data = some e.frame ∧ (e.time, e.line) ∈ trace ∧
        start + 5 ≤ e.time) ∧
    (∀ (now rc : ℤ) (s : GuiState), 0 < s.frameBuffer →
      0 < now - s.lastGuiUpdateTime →
      (finalizeDecodingE now rc none s).2.2.isSome = true) := by
  obtain ⟨hall, hchain⟩ := runLinesE_spec trace (startDecoding start)
  refine ⟨hchain, ?_, ?_⟩
  · intro e he
    obtain ⟨h1, h2, h3⟩ := hall e he
    exact ⟨h3, h2, h1⟩
  · intro now rc s hfb ht
    rw [finalize_flush_emits now rc none s hfb ht]
    rfl

/-- C4 witness: a concrete trace with two emissions 5 apart, one emission
membership fact, and a finalize flush 2 units after the last update. -/
theorem C4_throttle_witness :
    List.Chain' (fun a b => a.time + 5 ≤ b.time)
      (runLinesE (startDecoding 0)
        [(5, "File Frame 10: VHS"), (7, "File Frame 11: VHS"),
          (10, "File Frame 12: VHS")]).2 ∧
    (frameSearch (Emission.mk 5 "File Frame 10: VHS" 10).line.data =
        some (Emission.mk 5 "File Frame 10: VHS" 10).frame ∧
      ((Emission.mk 5 "File Frame 10: VHS" 10).time,
        (Emission.mk 5 "File Frame 10: VHS" 10).line) ∈
        [((5 : ℤ), "File Frame 10: VHS"), (7, "File Frame 11: VHS"),
          (10, "File Frame 12: VHS")] ∧
      (0 : ℤ) + 5 ≤ (Emission.mk 5 "File Frame 10: VHS" 10).time) ∧
    (finalizeDecodingE 7 0 none
      { startDecoding 0 with frameBuffer := 10, lastGuiUpdateTime := 5 }).2.2.isSome
      = true :=
  ⟨(C4_throttle 0 [(5, "File Frame 10: VHS"), (7, "File Frame 11: VHS"),
      (10, "File Frame 12: VHS")]).1,
    (C4_throttle 0 [(5, "File Frame 10: VHS"), (7, "File Frame 11: VHS"),
      (10, "File Frame 12: VHS")]).2.1
      (Emission.mk 5 "File Frame 10: VHS" 10) (by decide),
    (C4_throttle 0 [(5, "File Frame 10: VHS"), (7, "File Frame 11: VHS"),
      (10, "File Frame 12: VHS")]).2.2 7 0
      { startDecoding 0 with frameBuffer := 10, lastGuiUpdateTime := 5 }
      (by decide) (by decide)⟩

/-- C10: the throttle clock is seeded with the session launch time, so no
mid-run snapshot can be emitted earlier than 5 time units after session
start; and if every line of the run arrives within `D < 10` units of the
start, at most one mid-run snapshot is emitted before the final one. -/
theorem C10_seeded_throttle (start D : ℤ) (trace : List (ℤ × String))
    (hbound : ∀ p ∈ trace, p.1 ≤ start + D) (hD : D < 10) :
    (startDecoding start).lastGuiUpdateTime = start ∧
    (∀ e ∈ (runLinesE (startDecoding start) trace).2, start + 5 ≤ e.time) ∧
    (runLinesE (startDecoding start) trace).2.length ≤ 1 := by
  obtain ⟨hall, hchain⟩ := runLinesE_spec trace (startDecoding start)
  refine ⟨rfl, ?_, ?_⟩
  · intro e he
    exact (hall e he).1
  · cases hes : (runLinesE (startDecoding start) trace).2 with
    | nil => simp
    | cons e1 tail =>
      cases htl : tail with
      | nil => simp
      | cons e2 tail2 =>
        exfalso
        rw [htl] at hes
        have h1 : start + 5 ≤ e1.time := by
          have := hall e1 (by rw [hes]; exact List.mem_cons_self _ _)
          exact this.1
        have h12 : e1.time + 5 ≤ e2.time := by
          rw [hes] at hchain
          exact (List.chain'_cons.mp hchain).1
        have h2m : (e2.time, e2.line) ∈ trace := by
          have := hall e2 (by rw [hes]; exact List.mem_cons_of_mem _ (List.mem_cons_self _ _))
          exact this.2.1
        have := hbound (e2.time, e2.line) h2m
        simp only at this
        omega

/-- C10 witness: a 9-unit run with frame lines at 5 and 9 emits exactly one
mid-run snapshot, and it is not earlier than `start + 5`. -/
theorem C10_seeded_throttle_witness :
    (startDecoding 0).lastGuiUpdateTime = 0 ∧
    (∀ e ∈ (runLinesE (startDecoding 0)
        [(5, "File Frame 10: VHS"), (9, "File Frame 11: VHS")]).2,
      (0 : ℤ) + 5 ≤ e.time) ∧
    (runLinesE (startDecoding 0)
      [(5, "File Frame 10: VHS"), (9, "File Frame 11: VHS")]).2.length ≤ 1 :=
  C10_seeded_throttle 0 9 _ (by decide) (by decide)

/-- C7, counterexample: the claim says non-SGR ANSI escapes are stripped
from the text.  On the line `"\x1B[2JOK"` (a clear-screen escape directly
followed by text) the code's stripping would leave `"OK"`, yet `tokenize`
emits no segment at all: the fragment starts with `"\x1B["`, so the whole
fragment - trailing text included - is consumed by the SGR-code branch of
`log_output`. -/
theorem C7_counterexample :
    tokenize "\x1B[2JOK" = [] ∧
      String.mk (ansiSub "\x1B[2JOK".data) = "OK" ∧
      tokenize "\x1B[2JOK" ≠ [("OK", none)] :=
  ⟨rfl, rfl, by decide⟩

/-- C7, amended: `tokenize` starts each line with no active style and on the
spec's example yields exactly `("OK", green)` then `(" done", none)`; an SGR
code of `0` or the empty code resets the style, a recognized foreground
color code (one of eight) replaces any previously active color, and
unrecognized codes leave the style unchanged; a text fragment that does not
begin with `"\x1B["` has its non-SGR ANSI escapes stripped and produces no
segment when empty after stripping - but a fragment that begins with
`"\x1B["` (e.g. a non-SGR escape at the start of a fragment) is treated
entirely as a code sequence and produces no segment, its trailing text
being dropped. -/
theorem C7_tokenize_behavior :
    tokenize "\x1B[32mOK\x1B[0m done" = [("OK", some "32"), (" done", none)] ∧
    (∀ cur : Option String,
      applyCode cur "0".data = none ∧ applyCode cur [] = none) ∧
    (∀ (cur : Option String) (c : List Char), c ∈ colorCodes →
      applyCode cur c = some (String.mk c)) ∧
    (∀ (cur : Option String) (c : List Char), c ∉ colorCodes →
      c ≠ "0".data → c ≠ [] → applyCode cur c = cur) ∧
    (∀ (cur : Option String) (part : List Char),
      startsEscBracket part = true → tokenizeParts cur [part] = []) ∧
    (∀ (cur : Option String) (part : List Char),
      startsEscBracket part = false →
      tokenizeParts cur [part] =
        if ansiSub part = [] then [] else [(String.mk (ansiSub part), cur)]) := by
  refine ⟨rfl, ?_, ?_, ?_, ?_, ?_⟩
  · intro cur
    exact ⟨rfl, rfl⟩
  · intro cur c hc
    fin_cases hc <;> rfl
  · intro cur c h1 h2 h3
    unfold applyCode
    rw [if_neg (by simp [h2, h3]), if_neg h1]
  · intro cur part h
    have hne : part ≠ [] := by
      intro he
      rw [he] at h
      cases h
    simp [tokenizeParts, hne, h]
  · intro cur part h
    by_cases hp : part = []
    · subst hp
      rfl
    · by_cases hcl : ansiSub part = [] <;>
        simp [tokenizeParts, hp, h, hcl]

/-- C7 witness: the amended behavior at concrete inputs - the spec example,
a color-code replacement, a swallowed clear-screen fragment, and a stripped
mid-text escape. -/
theorem C7_tokenize_behavior_witness :
    tokenize "\x1B[32mOK\x1B[0m done" = [("OK", some "32"), (" done", none)] ∧
      applyCode (some "31") "32".data = some (String.mk "32".data) ∧
      tokenizeParts none ["\x1B[2JOK".data] = [] ∧
      tokenizeParts none ["ab\x1B[2Jcd".data] =
        (if ansiSub "ab\x1B[2Jcd".data = [] then []
          else [(String.mk (ansiSub "ab\x1B[2Jcd".data), none)]) :=
  ⟨C7_tokenize_behavior.1,
    C7_tokenize_behavior.2.2.1 (some "31") "32".data (by decide),
    C7_tokenize_behavior.2.2.2.2.1 none "\x1B[2JOK".data rfl,
    C7_tokenize_behavior.2.2.2.2.2 none "ab\x1B[2Jcd".data rfl⟩

end VhsDecode
